import Mathlib

set_option maxRecDepth 40000

namespace SotobacoGuide

/-!
Verification of the guide-crawling / context-selection subsystem of the
`render/title-proxy` service (file `render/title-proxy/server.js`).

The JavaScript source is shallowly embedded: pure string processing becomes
Lean functions over `String` / `List Char`; the process-wide mutable
`guideCache` becomes explicit state passing (`GuideCache` in, `GuideCache`
out); the asynchronous crawler becomes a fuel-indexed loop over an abstract
network `web : String → Option String` (a fetch either yields the response
body or throws); `Date.now()` becomes an explicit `now : Nat` parameter and
the configuration constants (`GUIDE_CACHE_TTL_MS`, `GUIDE_MAX_PAGES`,
`GUIDE_CONTEXT_ENABLED`, `GUIDE_ROOT_URL`) become parameters.
JavaScript string indices are code-unit positions; the embedding uses
character positions, which agree on the inputs considered here.
-/

/-- A crawled page record `{url, title, text}` (see `crawlGuidePages`). -/
structure Page where
  url : String
  title : String
  text : String
deriving DecidableEq, Repr

/-- The process-wide `guideCache` object: `{pages, fetchedAt, expiresAt, lastError}`.
Initial value is `{pages: [], fetchedAt: 0, expiresAt: 0, lastError: ''}`. -/
structure GuideCache where
  pages : List Page
  fetchedAt : Nat
  expiresAt : Nat
  lastError : String
deriving DecidableEq, Repr

/-- The cache at process start. -/
def GuideCache.initial : GuideCache :=
  { pages := [], fetchedAt := 0, expiresAt := 0, lastError := "" }

/-- One call to `getGuidePages`, with the crawl's outcome passed explicitly:
`Except.ok pages` when `crawlGuidePages()` resolves, `Except.error msg` when it
throws with message `msg` (an absent/empty `err.message` is modelled as
`msg = ""`, matching the `err && err.message ? err.message : ...` test).
Returns the updated cache and the returned page list.

```js
const getGuidePages = async () => {
  if (!GUIDE_CONTEXT_ENABLED) return [];
  const now = Date.now();
  if (guideCache.pages.length && guideCache.expiresAt > now) return guideCache.pages;
  try {
    const pages = await crawlGuidePages();
    guideCache.pages = pages; guideCache.fetchedAt = now;
    guideCache.expiresAt = now + GUIDE_CACHE_TTL_MS; guideCache.lastError = '';
    return pages;
  } catch (err) {
    guideCache.lastError = err && err.message ? err.message : 'guide crawl failed';
    guideCache.fetchedAt = now;
    guideCache.expiresAt = now + Math.min(5 * 60 * 1000, GUIDE_CACHE_TTL_MS);
    return guideCache.pages || [];
  }
};
```
-/
def getGuidePages (enabled : Bool) (ttl : Nat) (now : Nat) (cache : GuideCache)
    (crawl : Except String (List Page)) : GuideCache × List Page :=
  if !enabled then (cache, [])
  else if cache.pages ≠ [] ∧ now < cache.expiresAt then (cache, cache.pages)
  else
    match crawl with
    | Except.ok pages =>
        ({ pages := pages, fetchedAt := now, expiresAt := now + ttl,
           lastError := "" }, pages)
    | Except.error msg =>
        ({ cache with
           lastError := if msg ≠ "" then msg else "guide crawl failed",
           fetchedAt := now,
           expiresAt := now + Nat.min (5 * 60 * 1000) ttl }, cache.pages)

/-- Whether a call to `getGuidePages` at time `now` invokes `crawlGuidePages`:
it does exactly when the feature is enabled and the guard
`guideCache.pages.length && guideCache.expiresAt > now` fails. -/
def guideCrawlTriggered (enabled : Bool) (cache : GuideCache) (now : Nat) : Bool :=
  enabled && !(decide (cache.pages ≠ [] ∧ now < cache.expiresAt))

/-! ### Text normalization primitives

`cleanInline` and `normalizeMultiline` are regex pipelines over strings.  The
embedding works on `List Char` and models each `replace` as a structural pass.
JavaScript `\s` (and `trim`) match a Unicode whitespace class; `jsWhitespace`
covers the members that can appear in this system's data. -/

/-- The whitespace class used by the JS regexes `\s` and by `String.prototype.trim`. -/
def jsWhitespace (c : Char) : Bool :=
  c = ' ' || c = '\t' || c = '\n' || c = '\r' || c = '\x0b' || c = '\x0c' ||
  c = ' ' || c = '　' || c = '﻿'

/-- JS `String.prototype.trim`: strip leading and trailing whitespace. -/
def trimJs (cs : List Char) : List Char :=
  ((cs.dropWhile jsWhitespace).reverse.dropWhile jsWhitespace).reverse

/-- JS `.replace(/\r\n?/g, '\n')`: CRLF and lone CR become LF. -/
def crToLf : List Char → List Char
  | [] => []
  | '\r' :: '\n' :: t => '\n' :: crToLf t
  | '\r' :: t => '\n' :: crToLf t
  | c :: t => c :: crToLf t

/-- JS `.replace(/[ \t]+\n/g, '\n')`: delete spaces/tabs that directly precede a
newline (a space or tab is deleted exactly when every character between it and
the next newline is also a deleted space/tab). -/
def stripWsBeforeNl (cs : List Char) : List Char :=
  cs.foldr
    (fun c acc =>
      if (c = ' ' ∨ c = '\t') ∧ acc.head? = some '\n' then acc else c :: acc) []

/-- JS `.replace(/\n{3,}/g, '\n\n')`: runs of three or more newlines collapse to two. -/
def collapseNl3 (cs : List Char) : List Char :=
  cs.foldr
    (fun c acc =>
      if c = '\n' ∧ acc.take 2 = ['\n', '\n'] then acc else c :: acc) []

/-- JS `normalizeMultiline(v)`: CR/CRLF to LF, strip trailing whitespace before
newlines, collapse 3+ blank lines, trim. -/
def normalizeMultilineL (cs : List Char) : List Char :=
  trimJs (collapseNl3 (stripWsBeforeNl (crToLf cs)))

/-- JS `normalizeMultiline` on `String` (inputs here are always strings, so the
`String(v == null ? '' : v)` coercion is the identity). -/
def normalizeMultilineS (s : String) : String :=
  String.mk (normalizeMultilineL s.data)

/-- JS `.replace(/\s+/g, ' ')`: collapse every whitespace run to one space. -/
def collapseWs (cs : List Char) : List Char :=
  cs.foldr
    (fun c acc =>
      if jsWhitespace c then if acc.head? = some ' ' then acc else ' ' :: acc
      else c :: acc) []

/-- JS `cleanInline(v)`: collapse whitespace runs to single spaces and trim. -/
def cleanInlineS (s : String) : String :=
  String.mk (trimJs (collapseWs s.data))

/-! ### Index and substring primitives (JS `indexOf` / `lastIndexOf` / `slice`) -/

/-- Index of the first occurrence of character `c`, if any. -/
def idxOfChar : List Char → Char → Option Nat
  | [], _ => none
  | a :: t, c => if a = c then some 0 else (idxOfChar t c).map (· + 1)

/-- JS `s.indexOf(c, start)` for a single character: first index `≥ start` holding `c`. -/
def charIdxFrom (cs : List Char) (c : Char) (start : Nat) : Option Nat :=
  (idxOfChar (cs.drop start) c).map (· + start)

/-- JS `s.lastIndexOf(c, bound)` for a single character: last index `≤ bound` holding `c`. -/
def lastIdxLe (cs : List Char) (c : Char) (bound : Nat) : Option Nat :=
  (idxOfChar (cs.take (bound + 1)).reverse c).map
    (fun i => (cs.take (bound + 1)).length - 1 - i)

/-- JS `hay.indexOf(pat)`: index of the first occurrence of `pat` as a substring
(`some 0` for the empty pattern, as in JS). -/
def idxOfSub (pat : List Char) : List Char → Option Nat
  | [] => if pat.isPrefixOf [] then some 0 else none
  | c :: t => if pat.isPrefixOf (c :: t) then some 0 else (idxOfSub pat t).map (· + 1)

/-- JS `hay.includes(pat)` substring test. -/
def containsSub (hay pat : List Char) : Bool :=
  (idxOfSub pat hay).isSome

/-- JS `s.startsWith(pre)` (character-list implementation). -/
def startsWithS (s pre : String) : Bool :=
  pre.data.isPrefixOf s.data

/-- JS `s.endsWith(suf)` (character-list implementation). -/
def endsWithS (s suf : String) : Bool :=
  suf.data.isSuffixOf s.data

/-- JS `s.slice(start, stop)` for `0 ≤ start ≤ stop`: characters `[start, stop)`. -/
def sliceL (cs : List Char) (start stop : Nat) : List Char :=
  (cs.take stop).drop start

/-- JS `String.prototype.toLowerCase` (character-wise; ASCII range suffices here). -/
def lowerL (cs : List Char) : List Char :=
  cs.map Char.toLower

/-! ### `pickGuideSnippet` -/

/-- The `hit` scan of `pickGuideSnippet`: earliest index at which any token
occurs in the lowercased source, tracked exactly as the JS loop does.

```js
let hit = -1;
for (const tk of tokens) {
  const idx = lower.indexOf(tk.toLowerCase());
  if (idx >= 0 && (hit < 0 || idx < hit)) hit = idx;
}
```
-/
def hitIndex (lower : List Char) (tokens : List String) : Option Nat :=
  tokens.foldl
    (fun acc tk =>
      match idxOfSub (lowerL tk.data) lower with
      | none => acc
      | some idx =>
        match acc with
        | none => some idx
        | some h => if idx < h then some idx else some h) none

/-- The snippet start after snapping to the preceding line boundary:
`start = Math.max(0, hit - 220)` (natural subtraction), then
`prevNl = src.lastIndexOf('\n', start); if (prevNl >= 0) start = prevNl + 1`. -/
def snippetStart (src : List Char) (hit : Nat) : Nat :=
  match lastIdxLe src '\n' (hit - 220) with
  | some i => i + 1
  | none => hit - 220

/-- The snippet end position the (amended) claim predicts: the first newline at
or after `start + limit` (with `start` the pre-snap window start
`max(0, hit - 220)`), or `min(src.length, start + limit)` if no such newline
exists. -/
def snippetEndPos (src : List Char) (hit limit : Nat) : Nat :=
  match charIdxFrom src '\n' (hit - 220 + limit) with
  | some j => j
  | none => Nat.min src.length (hit - 220 + limit)

/-- JS `pickGuideSnippet(page, tokens, limit = 540)`.

```js
const pickGuideSnippet = (page, tokens, limit = 540) => {
  const src = normalizeMultiline(page.text || '');
  if (!src) return '';
  if (!tokens.length) return src.slice(0, limit);
  const lower = src.toLowerCase();
  let hit = -1;
  for (const tk of tokens) { ... }
  if (hit < 0) return src.slice(0, limit);
  let start = Math.max(0, hit - 220);
  let end = Math.min(src.length, start + limit);
  const prevNl = src.lastIndexOf('\n', start);
  if (prevNl >= 0) start = prevNl + 1;
  const nextNl = src.indexOf('\n', end);
  if (nextNl >= 0) end = nextNl;
  return src.slice(start, end).trim();
};
```
-/
def pickGuideSnippet (page : Page) (tokens : List String) (limit : Nat) : String :=
  let src := normalizeMultilineL page.text.data
  if src = [] then ""
  else if tokens = [] then String.mk (src.take limit)
  else
    match hitIndex (lowerL src) tokens with
    | none => String.mk (src.take limit)
    | some hit =>
      let start := hit - 220
      let stop := Nat.min src.length (start + limit)
      let start1 :=
        match lastIdxLe src '\n' start with
        | some i => i + 1
        | none => start
      let stop1 :=
        match charIdxFrom src '\n' stop with
        | some j => j
        | none => stop
      String.mk (trimJs (sliceL src start1 stop1))

/-- A page whose text is not in normalized form (a run of four newlines). -/
def rawPage : Page := { url := "u", title := "t", text := "a\n\n\n\nb" }

/-- Text of length 650 whose only newline sits at index 599, past the 540 limit. -/
def longNlPage : Page :=
  { url := "u", title := "t",
    text := String.mk ("tk".data ++ List.replicate 597 'a' ++ '\n' :: List.replicate 50 'b') }

/-- Text of length 600 containing no newline at all. -/
def noNlPage : Page :=
  { url := "u", title := "t", text := String.mk ("tk".data ++ List.replicate 598 'a') }

/-! ### Tokenizer -/

/-- The fixed stop-word set (`stopWords` in the source). -/
def stopWords : List String :=
  ["です", "ます", "する", "いる", "ある", "こと", "ため", "よう", "ください",
   "確認", "設定", "操作", "画面", "ソトバコ", "ポータル", "kintone"]

/-- First-character class of the ASCII alternative `[a-z0-9]`. -/
def isAsciiTok (c : Char) : Bool :=
  ('a' ≤ c && c ≤ 'z') || ('0' ≤ c && c ≤ '9')

/-- Continuation class of the ASCII alternative `[a-z0-9._-]`. -/
def isAsciiTokCont (c : Char) : Bool :=
  isAsciiTok c || c = '.' || c = '_' || c = '-'

/-- The CJK class `[一-龯ぁ-んァ-ヶー]` (Han U+4E00–U+9FAF, hiragana
U+3041–U+3093, katakana U+30A1–U+30F6, the long-vowel mark U+30FC). -/
def isCjk (c : Char) : Bool :=
  (0x4E00 ≤ c.toNat && c.toNat ≤ 0x9FAF) ||
  (0x3041 ≤ c.toNat && c.toNat ≤ 0x3093) ||
  (0x30A1 ≤ c.toNat && c.toNat ≤ 0x30F6) ||
  c.toNat = 0x30FC

/-- Global scan of `/[a-z0-9][a-z0-9._-]{1,}|[一-龯ぁ-んァ-ヶー]{2,}/g`: at each
position try the ASCII alternative (first char plus a greedy non-empty
continuation run), then the CJK alternative (a greedy run of length ≥ 2);
on failure advance one character.  Each step consumes at least one character,
so fuel `length + 1` suffices. -/
def tokenScan : Nat → List Char → List (List Char)
  | 0, _ => []
  | _, [] => []
  | fuel + 1, c :: t =>
    if isAsciiTok c then
      let run := t.takeWhile isAsciiTokCont
      if run ≠ [] then (c :: run) :: tokenScan fuel (t.drop run.length)
      else tokenScan fuel t
    else if isCjk c then
      let run := t.takeWhile isCjk
      if run ≠ [] then (c :: run) :: tokenScan fuel (t.drop run.length)
      else tokenScan fuel t
    else tokenScan fuel t

/-- JS `[...new Set(arr)]` with an explicit seen-set: keep first occurrences. -/
def uniqueAux {α : Type} [DecidableEq α] : List α → List α → List α
  | _, [] => []
  | seen, x :: xs =>
    if x ∈ seen then uniqueAux seen xs else x :: uniqueAux (x :: seen) xs

/-- JS `unique(arr)`: de-duplicate preserving first-seen order. -/
def unique {α : Type} [DecidableEq α] (l : List α) : List α :=
  uniqueAux [] l

/-- JS `tokenize(s)`: lower-case, run the token regex, drop stop words
(`Set.has` modelled as decidable list membership), de-duplicate. -/
def tokenize (s : String) : List String :=
  let found := tokenScan (s.data.length + 1) (lowerL s.data)
  unique ((found.map String.mk).filter (fun w => decide (w ∉ stopWords)))

/-! ### Relevance scorer -/

/-- A transient scored page `{page, score}`. -/
structure ScoredPage where
  page : Page
  score : Nat
deriving DecidableEq, Repr

/-- The descending-score order the JS comparator `(a, b) => b.score - a.score`
sorts by. -/
def scoreGe (a b : ScoredPage) : Prop :=
  b.score ≤ a.score

instance : DecidableRel scoreGe :=
  fun a b => Nat.decLe b.score a.score

instance : IsTotal ScoredPage scoreGe where
  total a b := Nat.le_total b.score a.score

instance : IsTrans ScoredPage scoreGe where
  trans _ _ _ hab hbc := Nat.le_trans hbc hab

/-- Per-page score of `buildGuideContext`: for each token contained in the
lowercased `title\ntext`, add 3 when the lowercased title also contains it,
else 1.

```js
const t = `${p.title}\n${p.text}`.toLowerCase();
let score = 0;
tokens.forEach((tk) => {
  if (t.includes(tk)) score += p.title.toLowerCase().includes(tk) ? 3 : 1;
});
```
-/
def scorePage (tokens : List String) (p : Page) : Nat :=
  let t := lowerL (p.title.data ++ '\n' :: p.text.data)
  let titleLower := lowerL p.title.data
  tokens.foldl
    (fun score tk =>
      if containsSub t tk.data then
        score + (if containsSub titleLower tk.data then 3 else 1)
      else score) 0

/-- JS `.sort((a, b) => b.score - a.score)`: a stable sort by descending score,
modelled by stable insertion sort (JS `Array.prototype.sort` is stable, and any
two stable sorts by the same key agree). -/
def sortScoredDesc (l : List ScoredPage) : List ScoredPage :=
  List.insertionSort scoreGe l

/-- The scored, descending-sorted page list of `buildGuideContext`. -/
def scoredSorted (tokens : List String) (pages : List Page) : List ScoredPage :=
  sortScoredDesc (pages.map fun p => { page := p, score := scorePage tokens p })

/-- Page selection of `buildGuideContext`: top 4 strictly-positive scorers, or
the first 2 pages in crawl order when nothing scored. -/
def selectedPages (scored : List ScoredPage) : List ScoredPage :=
  if scored.any (fun x => 0 < x.score) then
    (scored.filter (fun x => 0 < x.score)).take 4
  else scored.take 2

/-- A reference candidate `{question, answer}` supplied to `/draft-answer`. -/
structure Candidate where
  question : String
  answer : String

/-- JS `buildGuideContext({question, candidates})`, with the cached pages passed
explicitly (the `await getGuidePages()` result). -/
def buildGuideContext (enabled : Bool) (question : String)
    (candidates : List Candidate) (pages : List Page) : String :=
  if !enabled then ""
  else if pages = [] then ""
  else
    let seed := String.intercalate "\n"
      (normalizeMultilineS question ::
        candidates.map (fun c =>
          normalizeMultilineS c.question ++ "\n" ++ normalizeMultilineS c.answer))
    let tokens := (tokenize seed).take 24
    let selected := selectedPages (scoredSorted tokens pages)
    String.intercalate "\n\n"
      (selected.enum.map fun pr =>
        "[ガイド" ++ toString (pr.1 + 1) ++ "] " ++ pr.2.page.title ++
        "\nURL: " ++ pr.2.page.url ++ "\n抜粋:\n" ++
        pickGuideSnippet pr.2.page tokens 540)

/-- Page whose title contains the token. -/
def titleHitPage : Page :=
  { url := "https://g.example/portal/setup.html", title := "Setup Guide", text := "general notes" }

/-- Page containing the token only in its body text. -/
def bodyHitPage : Page :=
  { url := "https://g.example/portal/other.html", title := "Other", text := "about setup here" }

/-! ### URL model and scope filter

`new URL(...)` is a platform API; it is modelled for the scheme-and-host URLs
this crawler handles: `scheme://host/path?search#hash` parsing, base-relative
resolution of path-absolute and relative references (without dot-segment
normalization, which none of the crawled links use), and `.href`
reassembly. -/

/-- A parsed URL, after the fashion of the WHATWG `URL` properties used by the
source (`host`, `pathname`, `search`, `hash`). -/
structure Url where
  scheme : String
  host : String
  pathname : String
  search : String
  hash : String
deriving DecidableEq, Repr

/-- Split the part after the authority into pathname/search/hash; an empty
path becomes `/` as in the URL standard. -/
def splitPathSearchHash (scheme host : String) (after : List Char) : Url :=
  let path0 := after.takeWhile (fun c => !(c == '?' || c == '#'))
  let after1 := after.drop path0.length
  let searchPart := after1.takeWhile (fun c => !(c == '#'))
  let hashPart := after1.drop searchPart.length
  { scheme := scheme, host := host,
    pathname := if path0 = [] then "/" else String.mk path0,
    search := String.mk searchPart, hash := String.mk hashPart }

/-- JS `new URL(s)` for an absolute URL: scheme before `://`, authority up to the
first `/`, `?` or `#`, then path/search/hash. -/
def parseAbs (s : String) : Option Url :=
  match idxOfSub "://".data s.data with
  | none => none
  | some i =>
    let scheme := String.mk (s.data.take i)
    let rest := s.data.drop (i + 3)
    let hostPart := rest.takeWhile (fun c => !(c == '/' || c == '?' || c == '#'))
    if scheme = "" ∨ hostPart = [] then none
    else some (splitPathSearchHash scheme (String.mk hostPart) (rest.drop hostPart.length))

/-- JS `new URL(raw, base)`: an absolute `raw` stands alone; `//...` is
scheme-relative; a leading `/` is host-relative; anything else resolves
against the base's containing directory. -/
def resolveUrl (raw : String) (base : Option Url) : Option Url :=
  if (idxOfSub "://".data raw.data).isSome then parseAbs raw
  else
    match base with
    | none => none
    | some b =>
      if startsWithS raw "//" then parseAbs (b.scheme ++ ":" ++ raw)
      else if startsWithS raw "/" then some (splitPathSearchHash b.scheme b.host raw.data)
      else
        let dir := (b.pathname.data.reverse.dropWhile (fun c => c != '/')).reverse
        some (splitPathSearchHash b.scheme b.host (dir ++ raw.data))

/-- JS `.href` of a URL (after the crawler clears `search` and `hash`). -/
def hrefOf (u : Url) : String :=
  u.scheme ++ "://" ++ u.host ++ u.pathname ++ u.search ++ u.hash

/-- JS `root.pathname.replace(/[^/]*$/, '')`: drop the trailing run of
non-slash characters (the final path segment). -/
def dropLastSeg (p : String) : String :=
  String.mk ((p.data.reverse.dropWhile (fun c => c != '/')).reverse)

/-- The crawl root's directory prefix: the root path itself when it ends in
`/`, else the root path with its final segment removed. -/
def guideRootDir (root : Url) : String :=
  if endsWithS root.pathname "/" then root.pathname else dropLastSeg root.pathname

/-- The suffix test `/(\.html?$|\/$)/i`: the path ends in `.htm` or `.html`
(case-insensitively) or in a slash. -/
def pathSuffixTest (p : String) : Bool :=
  endsWithS (String.mk (lowerL p.data)) ".htm" ||
  endsWithS (String.mk (lowerL p.data)) ".html" ||
  endsWithS p "/"

/-- JS `isAllowedGuideUrl(url)` over parsed URLs, with the parsed root passed in
(`new URL(GUIDE_ROOT_URL)` is re-parsed on every call in the source).

```js
const isAllowedGuideUrl = (url) => {
  const root = new URL(GUIDE_ROOT_URL);
  const u = new URL(url);
  if (u.host !== root.host) return false;
  const rootDir = root.pathname.endsWith('/') ? root.pathname : root.pathname.replace(/[^/]*$/, '');
  if (!u.pathname.startsWith(rootDir)) return false;
  if (!/(\.html?$|\/$)/i.test(u.pathname)) return false;
  return true;
};
```
-/
def isAllowedGuideUrl (root u : Url) : Bool :=
  if u.host ≠ root.host then false
  else if ¬ (startsWithS u.pathname (guideRootDir root) = true) then false
  else if ¬ (pathSuffixTest u.pathname = true) then false
  else true

/-- JS `isAllowedGuideUrl` on a URL string, as called inside the crawl loop.
(In JS an unparsable string would throw; every queue member is a previously
resolved `.href`, so that branch is unreachable and is modelled as `false`.) -/
def allowedStr (root : Url) (s : String) : Bool :=
  match parseAbs s with
  | some u => isAllowedGuideUrl root u
  | none => false

/-- The default crawl root `https://guide.sotobaco.com/portal/index.html`, parsed. -/
def defaultRoot : Url :=
  { scheme := "https", host := "guide.sotobaco.com", pathname := "/portal/index.html",
    search := "", hash := "" }

/-! ### HTML entity decoding and tag stripping -/

/-- The entity-name character class `[a-zA-Z0-9#]`. -/
def isEntNameChar (c : Char) : Bool :=
  ('a' ≤ c && c ≤ 'z') || ('A' ≤ c && c ≤ 'Z') || ('0' ≤ c && c ≤ '9') || c = '#'

/-- Decimal digits to a number, as `Number(n)` reads them. -/
def natOfDecDigits (ds : List Char) : Nat :=
  ds.foldl (fun n c => n * 10 + (c.toNat - '0'.toNat)) 0

/-- Hex digits to a number, as `parseInt(n, 16)` reads them. -/
def natOfHexDigits (ds : List Char) : Nat :=
  ds.foldl
    (fun n c =>
      n * 16 +
        (if '0' ≤ c && c ≤ '9' then c.toNat - '0'.toNat
         else if 'a' ≤ c && c ≤ 'f' then c.toNat - 'a'.toNat + 10
         else c.toNat - 'A'.toNat + 10)) 0

/-- JS `&#NNN;` pass (`/&#(\d+);/g` with `String.fromCodePoint`).  An out-of-range
code point, which makes `fromCodePoint` throw in JS, is modelled as `Char.ofNat`'s
NUL fallback; no in-scope input reaches it. -/
def decDecimalPass : Nat → List Char → List Char
  | 0, cs => cs
  | _, [] => []
  | fuel + 1, c :: t =>
    if c = '&' then
      match t with
      | '#' :: rest =>
        let digits := rest.takeWhile Char.isDigit
        if digits ≠ [] ∧ (rest.drop digits.length).head? = some ';' then
          Char.ofNat (natOfDecDigits digits) ::
            decDecimalPass fuel (rest.drop (digits.length + 1))
        else c :: decDecimalPass fuel t
      | _ => c :: decDecimalPass fuel t
    else c :: decDecimalPass fuel t

/-- Hex-digit test `[0-9a-fA-F]`. -/
def isHexDigit (c : Char) : Bool :=
  ('0' ≤ c && c ≤ '9') || ('a' ≤ c && c ≤ 'f') || ('A' ≤ c && c ≤ 'F')

/-- JS `&#xHEX;` pass (`/&#x([0-9a-fA-F]+);/g`; the `x` is literal and
case-sensitive in the source regex). -/
def decHexPass : Nat → List Char → List Char
  | 0, cs => cs
  | _, [] => []
  | fuel + 1, c :: t =>
    if c = '&' then
      match t with
      | '#' :: 'x' :: rest =>
        let digits := rest.takeWhile isHexDigit
        if digits ≠ [] ∧ (rest.drop digits.length).head? = some ';' then
          Char.ofNat (natOfHexDigits digits) ::
            decHexPass fuel (rest.drop (digits.length + 1))
        else c :: decHexPass fuel t
      | _ => c :: decHexPass fuel t
    else c :: decHexPass fuel t

/-- The fixed named-entity table `htmlEntityMap`. -/
def entityLookup (name : List Char) : Option (List Char) :=
  if name = "amp".data then some ['&']
  else if name = "lt".data then some ['<']
  else if name = "gt".data then some ['>']
  else if name = "quot".data then some ['"']
  else if name = "apos".data then some ['\'']
  else if name = "nbsp".data then some [' ']
  else if name = "#39".data then some ['\'']
  else none

/-- Named-entity pass (`/&([a-zA-Z0-9#]+);/g`): a known name is replaced, an
unknown one is kept verbatim (the match is emitted unchanged and scanning
resumes after it, as the JS engine does). -/
def decNamedPass : Nat → List Char → List Char
  | 0, cs => cs
  | _, [] => []
  | fuel + 1, c :: t =>
    if c = '&' then
      let name := t.takeWhile isEntNameChar
      if name ≠ [] ∧ (t.drop name.length).head? = some ';' then
        match entityLookup name with
        | some rep => rep ++ decNamedPass fuel (t.drop (name.length + 1))
        | none => c :: name ++ ';' :: decNamedPass fuel (t.drop (name.length + 1))
      else c :: decNamedPass fuel t
    else c :: decNamedPass fuel t

/-- JS `decodeHtmlEntities(input)` on character lists: decimal, then hex, then
named entities. -/
def decodeHtmlEntitiesL (cs : List Char) : List Char :=
  let a := decDecimalPass (cs.length + 1) cs
  let b := decHexPass (a.length + 1) a
  decNamedPass (b.length + 1) b

/-- JS `decodeHtmlEntities` on strings. -/
def decodeHtmlEntities (s : String) : String :=
  String.mk (decodeHtmlEntitiesL s.data)

/-- Case-insensitive prefix test: does `cs` start with the (lowercase)
pattern `pat`? -/
def lowerStarts (cs pat : List Char) : Bool :=
  pat.isPrefixOf (lowerL (cs.take pat.length))

/-- JS `\w` (ASCII word character), used for the `\b` boundary after
`<script`/`<style`. -/
def isWordChar (c : Char) : Bool :=
  ('a' ≤ c && c ≤ 'z') || ('A' ≤ c && c ≤ 'Z') || ('0' ≤ c && c ≤ '9') || c = '_'

/-- JS `/<tag\b[^>]*>[\s\S]*?<\/tag>/gi` for `tag` = `script` / `style`: remove
the whole element (content included), replacing it with one space; without a
complete match the `<` is kept and scanning advances. -/
def removeBlockPass (openTag closeTag : List Char) : Nat → List Char → List Char
  | 0, cs => cs
  | _, [] => []
  | fuel + 1, c :: t =>
    if lowerStarts (c :: t) openTag then
      let after := (c :: t).drop openTag.length
      let boundary :=
        match after.head? with
        | some d => !isWordChar d
        | none => true
      let attrs := after.takeWhile (fun d => d != '>')
      if boundary && decide (attrs.length < after.length) then
        let rest := after.drop (attrs.length + 1)
        match idxOfSub closeTag (lowerL rest) with
        | some i => ' ' :: removeBlockPass openTag closeTag fuel (rest.drop (i + closeTag.length))
        | none => c :: removeBlockPass openTag closeTag fuel t
      else c :: removeBlockPass openTag closeTag fuel t
    else c :: removeBlockPass openTag closeTag fuel t

/-- JS `/<br\s*\/?>/gi`: a `<br>` (with optional whitespace and self-closing
slash) becomes a newline. -/
def brPass : Nat → List Char → List Char
  | 0, cs => cs
  | _, [] => []
  | fuel + 1, c :: t =>
    if lowerStarts (c :: t) "<br".data then
      let after := (c :: t).drop 3
      let ws := after.takeWhile jsWhitespace
      let after2 := after.drop ws.length
      let after3 := if after2.head? = some '/' then after2.drop 1 else after2
      if after3.head? = some '>' then '\n' :: brPass fuel (after3.drop 1)
      else c :: brPass fuel t
    else c :: brPass fuel t

/-- The closing block-level tags `(p|div|section|article|li|h[1-6]|tr)`. -/
def blockTagNames : List (List Char) :=
  ["p".data, "div".data, "section".data, "article".data, "li".data,
   "h1".data, "h2".data, "h3".data, "h4".data, "h5".data, "h6".data, "tr".data]

/-- After `</`, match one of the block tag names followed directly by `>`;
returns the number of characters consumed (tag plus `>`). -/
def matchCloseTag (cs : List Char) : Option Nat :=
  blockTagNames.foldl
    (fun acc t =>
      match acc with
      | some n => some n
      | none =>
        if lowerStarts cs t ∧ (cs.drop t.length).head? = some '>' then some (t.length + 1)
        else none) none

/-- JS `/<\/(p|div|section|article|li|h[1-6]|tr)>/gi`: closing block-level tags
become newlines. -/
def closeBlockPass : Nat → List Char → List Char
  | 0, cs => cs
  | _, [] => []
  | fuel + 1, c :: t =>
    if c = '<' ∧ t.head? = some '/' then
      match matchCloseTag (t.drop 1) with
      | some n => '\n' :: closeBlockPass fuel (t.drop (1 + n))
      | none => c :: closeBlockPass fuel t
    else c :: closeBlockPass fuel t

/-- JS `/<[^>]*>/g`: every remaining complete tag becomes a space; a `<` with no
subsequent `>` is kept. -/
def stripTagsPass : Nat → List Char → List Char
  | 0, cs => cs
  | _, [] => []
  | fuel + 1, c :: t =>
    if c = '<' then
      let attrs := t.takeWhile (fun d => d != '>')
      if attrs.length < t.length then ' ' :: stripTagsPass fuel (t.drop (attrs.length + 1))
      else c :: stripTagsPass fuel t
    else c :: stripTagsPass fuel t

/-- JS `/[ \t]{2,}/g → ' '`: runs of two or more spaces/tabs collapse to a single
space (a lone space or tab is untouched). -/
def collapseSpaceRuns : Nat → List Char → List Char
  | 0, cs => cs
  | _, [] => []
  | fuel + 1, c :: t =>
    if c = ' ' ∨ c = '\t' then
      let run := t.takeWhile (fun d => d == ' ' || d == '\t')
      if run ≠ [] then ' ' :: collapseSpaceRuns fuel (t.drop run.length)
      else c :: collapseSpaceRuns fuel t
    else c :: collapseSpaceRuns fuel t

/-- JS `/\n[ \t]+/g → '\n'`: leading spaces/tabs after a newline are stripped. -/
def stripIndentPass : Nat → List Char → List Char
  | 0, cs => cs
  | _, [] => []
  | fuel + 1, '\n' :: t =>
    let run := t.takeWhile (fun d => d == ' ' || d == '\t')
    '\n' :: stripIndentPass fuel (t.drop run.length)
  | fuel + 1, c :: t => c :: stripIndentPass fuel t

/-- JS `stripHtmlToText(html)`: drop script/style elements, turn `<br>` and
closing block tags into newlines, strip remaining tags, decode entities,
collapse space runs and post-newline indentation, then multiline-normalize. -/
def stripHtmlToText (s : String) : String :=
  let a := removeBlockPass "<script".data "</script>".data (s.data.length + 1) s.data
  let b := removeBlockPass "<style".data "</style>".data (a.length + 1) a
  let c := brPass (b.length + 1) b
  let d := closeBlockPass (c.length + 1) c
  let e := stripTagsPass (d.length + 1) d
  let f := decodeHtmlEntitiesL e
  let g := collapseSpaceRuns (f.length + 1) f
  let h := stripIndentPass (g.length + 1) g
  String.mk (normalizeMultilineL h)

/-- Does the string contain a raw entity reference (`&name;` with `name` a
non-empty run of `[a-zA-Z0-9#]`)? -/
def hasEntityRefAux : Nat → List Char → Bool
  | 0, _ => false
  | _, [] => false
  | fuel + 1, c :: t =>
    if c = '&' then
      let name := t.takeWhile isEntNameChar
      if name ≠ [] ∧ (t.drop name.length).head? = some ';' then true
      else hasEntityRefAux fuel t
    else hasEntityRefAux fuel t

/-- Entity-reference detector on strings. -/
def hasEntityRef (s : String) : Bool :=
  hasEntityRefAux (s.data.length + 1) s.data

/-! ### Link/title extraction and the crawler -/

/-- First `/<title[^>]*>([\s\S]*?)<\/title>/i` capture, if any. -/
def titlePass : Nat → List Char → Option (List Char)
  | 0, _ => none
  | _, [] => none
  | fuel + 1, c :: t =>
    if lowerStarts (c :: t) "<title".data then
      let after := (c :: t).drop 6
      let attrs := after.takeWhile (fun d => d != '>')
      if attrs.length < after.length then
        let rest := after.drop (attrs.length + 1)
        match idxOfSub "</title>".data (lowerL rest) with
        | some i => some (rest.take i)
        | none => titlePass fuel t
      else titlePass fuel t
    else titlePass fuel t

/-- JS `extractTitleFromHtml(html, fallback)`: the first `<title>` content,
entity-decoded and inline-cleaned; the fallback when absent or empty. -/
def extractTitleFromHtml (html fallback : String) : String :=
  match titlePass (html.data.length + 1) html.data with
  | none => fallback
  | some content =>
    let ti := String.mk (trimJs (collapseWs (decodeHtmlEntitiesL content)))
    if ti = "" then fallback else ti

/-- One `href` attribute value starting at the current position, if the
pattern `href\s*=\s*(?:"([^"]+)"|'([^']+)'|([^\s>]+))` matches here: returns
the raw value and the remaining input after the match.  A quoted form that
cannot complete falls back to the bare-token alternative, which then starts at
the quote character, as regex backtracking does. -/
def hrefValueAt (cs : List Char) : Option (List Char × List Char) :=
  let afterEq := cs.dropWhile jsWhitespace
  match afterEq.head? with
  | some '=' =>
    let v := (afterEq.drop 1).dropWhile jsWhitespace
    let bare :=
      let tokn := v.takeWhile (fun d => !(jsWhitespace d || d == '>'))
      if tokn = [] then none else some (tokn, v.drop tokn.length)
    match v.head? with
    | some '"' =>
      let content := (v.drop 1).takeWhile (fun d => d != '"')
      if content ≠ [] ∧ ((v.drop 1).drop content.length).head? = some '"' then
        some (content, (v.drop 1).drop (content.length + 1))
      else bare
    | some '\'' =>
      let content := (v.drop 1).takeWhile (fun d => d != '\'')
      if content ≠ [] ∧ ((v.drop 1).drop content.length).head? = some '\'' then
        some (content, (v.drop 1).drop (content.length + 1))
      else bare
    | _ => bare
  | _ => none

/-- Global scan for `href` attribute values (`/href\s*=\s*.../gi`): at each
case-insensitive `href` occurrence try to read a value; on success continue
after it, otherwise advance one character. -/
def hrefScan : Nat → List Char → List (List Char)
  | 0, _ => []
  | _, [] => []
  | fuel + 1, c :: t =>
    if lowerStarts (c :: t) "href".data then
      match hrefValueAt ((c :: t).drop 4) with
      | some (v, rest) => v :: hrefScan fuel rest
      | none => hrefScan fuel t
    else hrefScan fuel t

/-- JS `extractHrefLinks(html, currentUrl)`: collect raw `href` values, skip
empty/fragment/`javascript:`/`mailto:` values, resolve against the current
URL, strip query and fragment, deduplicate preserving first-seen order. -/
def extractHrefLinks (html currentUrl : String) : List String :=
  let raws := (hrefScan (html.data.length + 1) html.data).map String.mk
  let kept := raws.filter
    (fun r => !(r = "" || startsWithS r "#" || startsWithS r "javascript:" ||
                startsWithS r "mailto:"))
  let base := parseAbs currentUrl
  unique (kept.filterMap
    (fun r => (resolveUrl r base).map
      (fun u => hrefOf { u with search := "", hash := "" })))

/-- Transient per-run crawl state, instrumented with an append-only log of
every URL pushed onto the queue (`enqueueLog`, seeded with the start URL) and
of every URL passed to `abortableFetchText` (`fetchLog`). -/
structure CrawlOut where
  visited : List String
  queue : List String
  pages : List Page
  enqueueLog : List String
  fetchLog : List String
deriving DecidableEq, Repr

/-- Outbound links of a fetched page, filtered to unvisited in-scope URLs and
capped at 60 (`extractHrefLinks(html, url).filter(...).slice(0, 60)`). -/
def crawlStepLinks (root : Url) (visited : List String) (html url : String) :
    List String :=
  ((extractHrefLinks html url).filter
    (fun next => decide (next ∉ visited) && allowedStr root next)).take 60

/-- The `while (queue.length && pages.length < GUIDE_MAX_PAGES)` loop of
`crawlGuidePages`, fuel-indexed (the JS loop's iteration count is finite for
every terminating run, and every property proved below holds for all fuel).
A fetch failure (`web url = none`) is the thrown/caught path: the page is
skipped and traversal continues. -/
def crawlLoop (web : String → Option String) (root : Url) (maxPages : Nat) :
    Nat → CrawlOut → CrawlOut
  | 0, st => st
  | fuel + 1, st =>
    match st.queue with
    | [] => st
    | url :: rest =>
      if maxPages ≤ st.pages.length then st
      else if url = "" ∨ url ∈ st.visited then
        crawlLoop web root maxPages fuel { st with queue := rest }
      else
        if allowedStr root url = false then
          crawlLoop web root maxPages fuel
            { st with visited := st.visited ++ [url], queue := rest }
        else
          match web url with
          | none =>
            crawlLoop web root maxPages fuel
              { st with
                visited := st.visited ++ [url],
                queue := rest,
                fetchLog := st.fetchLog ++ [url] }
          | some html =>
            let title := extractTitleFromHtml html url
            let text := stripHtmlToText html
            let pages1 :=
              if 80 < text.length then
                st.pages ++
                  [{ url := url, title := title, text := String.mk (text.data.take 12000) }]
              else st.pages
            let links := crawlStepLinks root (st.visited ++ [url]) html url
            crawlLoop web root maxPages fuel
              { visited := st.visited ++ [url], queue := rest ++ links,
                pages := pages1, enqueueLog := st.enqueueLog ++ links,
                fetchLog := st.fetchLog ++ [url] }

/-- The crawl's initial state: queue holds the root's `.href`. -/
def initCrawl (root : Url) : CrawlOut :=
  { visited := [], queue := [hrefOf root], pages := [], enqueueLog := [hrefOf root],
    fetchLog := [] }

/-- JS `crawlGuidePages()` with its instrumented state. -/
def crawlGuidePagesLog (web : String → Option String) (root : Url)
    (maxPages fuel : Nat) : CrawlOut :=
  crawlLoop web root maxPages fuel (initCrawl root)

/-- JS `crawlGuidePages()`: the accumulated page records. -/
def crawlGuidePages (web : String → Option String) (root : Url)
    (maxPages fuel : Nat) : List Page :=
  (crawlGuidePagesLog web root maxPages fuel).pages

/-- The crawl root of the concrete two-branch site. -/
def demoRoot : Url :=
  { scheme := "https", host := "g.example", pathname := "/portal/index.html",
    search := "", hash := "" }

/-- A three-page site in which `p1.html` and `p2.html` both link to
`x.html`. -/
def demoWeb (u : String) : Option String :=
  if u = "https://g.example/portal/index.html" then
    some "<a href=\"/portal/p1.html\">x</a><a href=\"/portal/p2.html\">y</a>"
  else if u = "https://g.example/portal/p1.html" then
    some "<a href=\"/portal/x.html\">z</a>"
  else if u = "https://g.example/portal/p2.html" then
    some "<a href=\"/portal/x.html\">z</a>"
  else none

/-- A sample page used in concrete cache scenarios. -/
def samplePage : Page := { url := "https://g.example/portal/a.html", title := "A", text := "alpha" }

/-- A previously successful, now expired, cache entry. -/
def staleCache : GuideCache :=
  { pages := [samplePage], fetchedAt := 0, expiresAt := 5, lastError := "" }

/-- A cache entry populated by a failed cold-start crawl: no pages, but
`fetchedAt`/`expiresAt` set and an error recorded. -/
def failedColdCache : GuideCache :=
  { pages := [], fetchedAt := 100, expiresAt := 1000, lastError := "boom" }

/-! ### Theorems -/

/-- C9 counterexample: for a page whose text is not already normalized,
`pickGuideSnippet(page, [])` is not a prefix of the raw page text — the code
normalizes (`normalizeMultiline`) before slicing, so the claim "exactly the
first 540 characters of the page text" fails. -/
theorem pickGuideSnippet_notRawPrefix :
    pickGuideSnippet rawPage [] 540 ≠ String.mk (rawPage.text.data.take 540) ∧
    pickGuideSnippet rawPage [] 540 = "a\n\nb" := by
  constructor
  · decide
  · decide

/-- C9 as amended: `pickGuideSnippet(page, [])` returns exactly the first
`limit` characters of the **normalized** page text (the whole normalized text
when it is shorter than `limit`). -/
theorem pickGuideSnippet_noTokens (page : Page) (limit : Nat) :
    pickGuideSnippet page [] limit
      = String.mk ((normalizeMultilineL page.text.data).take limit) := by
  unfold pickGuideSnippet
  by_cases h : normalizeMultilineL page.text.data = []
  · simp [h]
  · simp [h]

/-- Searching for a character from `min cs.length p` finds the same index as
searching from `p`: beyond the end of the list both searches fail. -/
theorem charIdxFrom_min (cs : List Char) (c : Char) (p : Nat) :
    charIdxFrom cs c (Nat.min cs.length p) = charIdxFrom cs c p := by
  rcases le_total p cs.length with h | h
  · have hm : Nat.min cs.length p = p := by
      simp only [Nat.min_eq_min]; omega
    rw [hm]
  · have hm : Nat.min cs.length p = cs.length := by
      simp only [Nat.min_eq_min]; omega
    rw [hm]
    unfold charIdxFrom
    rw [List.drop_eq_nil_of_le (le_refl cs.length), List.drop_eq_nil_of_le h]
    simp [idxOfChar]

/-- C10 as amended: when `pickGuideSnippet` finds a token hit, the snippet is
the trimmed slice ending at the first newline at or after `start + limit`
(`start = max(0, hit - 220)`), or at `min(src.length, start + limit)` — not at
the end of the text — when no such newline exists. -/
theorem pickGuideSnippet_hit_end (page : Page) (tokens : List String) (limit hit : Nat)
    (hsrc : normalizeMultilineL page.text.data ≠ [])
    (htoks : tokens ≠ [])
    (hhit : hitIndex (lowerL (normalizeMultilineL page.text.data)) tokens = some hit) :
    pickGuideSnippet page tokens limit
      = String.mk (trimJs (sliceL (normalizeMultilineL page.text.data)
          (snippetStart (normalizeMultilineL page.text.data) hit)
          (snippetEndPos (normalizeMultilineL page.text.data) hit limit))) := by
  unfold pickGuideSnippet
  simp only [hsrc, if_neg, htoks, hhit]
  have hmin := charIdxFrom_min (normalizeMultilineL page.text.data) '\n' (hit - 220 + limit)
  unfold snippetStart snippetEndPos
  rw [← hmin]
  cases hidx : charIdxFrom (normalizeMultilineL page.text.data) '\n'
      (Nat.min (normalizeMultilineL page.text.data).length (hit - 220 + limit)) with
  | none => simp [hsrc, htoks]
  | some j => simp [hsrc, htoks]

/-- Closed witness for `pickGuideSnippet_hit_end`: the hit is at index 0, the
snippet runs to the newline at index 599, and its length 599 strictly exceeds
the 540 limit. -/
theorem pickGuideSnippet_hit_end_witness :
    (normalizeMultilineL longNlPage.text.data ≠ [] ∧
     hitIndex (lowerL (normalizeMultilineL longNlPage.text.data)) ["tk"] = some 0) ∧
    pickGuideSnippet longNlPage ["tk"] 540
      = String.mk (trimJs (sliceL (normalizeMultilineL longNlPage.text.data)
          (snippetStart (normalizeMultilineL longNlPage.text.data) 0)
          (snippetEndPos (normalizeMultilineL longNlPage.text.data) 0 540))) ∧
    540 < (pickGuideSnippet longNlPage ["tk"] 540).length :=
  ⟨⟨by decide, by decide⟩,
   pickGuideSnippet_hit_end longNlPage ["tk"] 540 0 (by decide)
     (by decide) (by decide),
   by decide⟩

/-- C10 counterexample for the claim as stated: with no newline anywhere in the
600-character text, the snippet ends at `start + limit = 540`, not at the end
of the text as the claim's parenthetical predicts. -/
theorem pickGuideSnippet_no_newline_stops_at_limit :
    noNlPage.text.data.all (fun c => c ≠ '\n') = true ∧
    noNlPage.text.length = 600 ∧
    (pickGuideSnippet noNlPage ["tk"] 540).length = 540 ∧
    pickGuideSnippet noNlPage ["tk"] 540 ≠ String.mk (trimJs noNlPage.text.data) := by
  refine ⟨by decide, by decide, by decide, by decide⟩

theorem uniqueAux_nodup {α : Type} [DecidableEq α] :
    ∀ (l seen : List α),
      (uniqueAux seen l).Nodup ∧ ∀ x ∈ uniqueAux seen l, x ∉ seen := by
  intro l
  induction l with
  | nil => intro seen; simp [uniqueAux]
  | cons x xs ih =>
      intro seen
      by_cases hx : x ∈ seen
      · simpa [uniqueAux, hx] using ih seen
      · have h1 := ih (x :: seen)
        refine ⟨?_, ?_⟩
        · simp only [uniqueAux, hx, if_neg, not_false_eq_true, List.nodup_cons]
          exact ⟨fun hmem => (h1.2 x hmem) (List.mem_cons_self x seen), h1.1⟩
        · intro y hy
          simp only [uniqueAux, hx, if_neg, not_false_eq_true, List.mem_cons] at hy
          rcases hy with rfl | hy
          · exact hx
          · exact fun hin => (h1.2 y hy) (List.mem_cons_of_mem x hin)

theorem mem_of_mem_uniqueAux {α : Type} [DecidableEq α] :
    ∀ (l seen : List α) (x : α), x ∈ uniqueAux seen l → x ∈ l := by
  intro l
  induction l with
  | nil => intro seen x h; simp [uniqueAux] at h
  | cons a as ih =>
      intro seen x h
      by_cases ha : a ∈ seen
      · simp only [uniqueAux, ha, if_pos] at h
        exact List.mem_cons_of_mem a (ih seen x h)
      · simp only [uniqueAux, ha, if_neg, not_false_eq_true, List.mem_cons] at h
        rcases h with rfl | h
        · exact List.mem_cons_self x as
        · exact List.mem_cons_of_mem a (ih (a :: seen) x h)

/-- C8: `tokenize` never returns a stop word and never returns duplicates. -/
theorem tokenize_no_stopwords_nodup (s : String) :
    (∀ t ∈ tokenize s, t ∉ stopWords) ∧ (tokenize s).Nodup := by
  constructor
  · intro t ht
    have hmem := mem_of_mem_uniqueAux _ [] t ht
    have := List.of_mem_filter hmem
    exact of_decide_eq_true this
  · exact (uniqueAux_nodup _ []).1

/-- Closed witness for `tokenize_no_stopwords_nodup`: on an input containing a
stop word (`です`) and a duplicated token, the output keeps `abc` once and
excludes the stop word. -/
theorem tokenize_no_stopwords_nodup_witness :
    "abc" ∈ tokenize "Abc です ABC kintone" ∧
    "abc" ∉ stopWords ∧ (tokenize "Abc です ABC kintone").Nodup :=
  ⟨by decide,
   (tokenize_no_stopwords_nodup "Abc です ABC kintone").1 "abc" (by decide),
   (tokenize_no_stopwords_nodup "Abc です ABC kintone").2⟩

/-- An occurrence inside `l₁` is an occurrence inside `l₁ ++ l₂`. -/
theorem containsSub_append_left (l₁ l₂ pat : List Char)
    (h : containsSub l₁ pat = true) : containsSub (l₁ ++ l₂) pat = true := by
  induction l₁ with
  | nil =>
      cases pat with
      | nil =>
          cases l₂ with
          | nil => simp [containsSub, idxOfSub, List.isPrefixOf]
          | cons c t => simp [containsSub, idxOfSub, List.isPrefixOf]
      | cons c t =>
          exfalso
          simp [containsSub, idxOfSub, List.isPrefixOf] at h
  | cons c t ih =>
      simp only [containsSub, idxOfSub] at h ⊢
      by_cases hp : pat.isPrefixOf (c :: t) = true
      · have hpfx : pat <+: (c :: t) := List.isPrefixOf_iff_prefix.mp hp
        have hq : pat.isPrefixOf (c :: (t ++ l₂)) = true := by
          have hext := hpfx.trans (List.prefix_append (c :: t) l₂)
          exact List.isPrefixOf_iff_prefix.mpr (by simpa [List.cons_append] using hext)
        simp [List.cons_append, hq]
      · simp only [hp, if_neg, Bool.false_eq_true, not_false_eq_true,
          Option.isSome_map] at h
        have ht := ih (by simpa [containsSub] using h)
        simp only [containsSub] at ht
        by_cases hq : pat.isPrefixOf (c :: (t ++ l₂)) = true
        · simp [hq]
        · simp [hq, Option.isSome_map, ht]

/-- In a list that is pairwise sorted by descending score, every element of
strictly greater score sits at a strictly smaller index. -/
theorem indexOf_lt_of_pairwise_scoreGe :
    ∀ (L : List ScoredPage), L.Pairwise scoreGe →
      ∀ a b : ScoredPage, a ∈ L → b ∈ L → b.score < a.score →
        L.indexOf a < L.indexOf b := by
  intro L
  induction L with
  | nil => intro _ a b ha; exact absurd ha (List.not_mem_nil a)
  | cons x xs ih =>
      intro hL a b ha hb hr
      have hx := (List.pairwise_cons.mp hL).1
      have hxs := (List.pairwise_cons.mp hL).2
      by_cases hxa : x = a
      · subst hxa
        have hba : b ≠ x := by
          intro h; subst h; exact absurd hr (lt_irrefl _)
        have h0 : List.indexOf x (x :: xs) = 0 := List.indexOf_cons_self x xs
        have h1 : List.indexOf b (x :: xs) = (List.indexOf b xs).succ :=
          List.indexOf_cons_ne xs (fun h => hba h.symm)
        rw [h0, h1]
        exact Nat.succ_pos _
      · by_cases hxb : x = b
        · subst hxb
          have haxs : a ∈ xs := by
            rcases List.mem_cons.mp ha with h | h
            · exact absurd h.symm hxa
            · exact h
          exact absurd (hx a haxs) (not_le.mpr hr)
        · have haxs : a ∈ xs := by
            rcases List.mem_cons.mp ha with h | h
            · exact absurd h.symm hxa
            · exact h
          have hbxs : b ∈ xs := by
            rcases List.mem_cons.mp hb with h | h
            · exact absurd h (fun hh => hxb hh.symm)
            · exact h
          have hlt := ih hxs a b haxs hbxs hr
          have h0 : List.indexOf a (x :: xs) = (List.indexOf a xs).succ :=
            List.indexOf_cons_ne xs hxa
          have h1 : List.indexOf b (x :: xs) = (List.indexOf b xs).succ :=
            List.indexOf_cons_ne xs hxb
          rw [h0, h1]
          omega

/-- C5: a token contained (case-insensitively) in page `p`'s title scores 3 for
`p`; a page `q` containing it only in body text scores 1; and in the
descending-sorted scored list `p`'s entry is ranked strictly above `q`'s. -/
theorem scorePage_title_weight (pages : List Page) (tk : String) (p q : Page)
    (hp : p ∈ pages) (hq : q ∈ pages)
    (hpt : containsSub (lowerL p.title.data) tk.data = true)
    (hqt : containsSub (lowerL q.title.data) tk.data = false)
    (hqb : containsSub (lowerL (q.title.data ++ '\n' :: q.text.data)) tk.data = true) :
    scorePage [tk] p = 3 ∧ scorePage [tk] q = 1 ∧
    List.indexOf ({ page := p, score := 3 } : ScoredPage) (scoredSorted [tk] pages)
      < List.indexOf ({ page := q, score := 1 } : ScoredPage) (scoredSorted [tk] pages) := by
  have hpblob : containsSub (lowerL (p.title.data ++ '\n' :: p.text.data)) tk.data = true := by
    have := containsSub_append_left (lowerL p.title.data)
      (lowerL ('\n' :: p.text.data)) tk.data hpt
    simpa [lowerL, List.map_append] using this
  have hscp : scorePage [tk] p = 3 := by
    simp [scorePage, hpblob, hpt]
  have hscq : scorePage [tk] q = 1 := by
    simp [scorePage, hqb, hqt]
  refine ⟨hscp, hscq, ?_⟩
  have hsorted : (scoredSorted [tk] pages).Pairwise scoreGe :=
    List.sorted_insertionSort scoreGe _
  have hperm : List.Perm
      (sortScoredDesc (pages.map fun x => { page := x, score := scorePage [tk] x }))
      (pages.map fun x => { page := x, score := scorePage [tk] x }) :=
    List.perm_insertionSort scoreGe _
  have hpmem : ({ page := p, score := 3 } : ScoredPage) ∈ scoredSorted [tk] pages := by
    refine (hperm.mem_iff).mpr ?_
    have := List.mem_map_of_mem (fun x => ({ page := x, score := scorePage [tk] x } : ScoredPage)) hp
    simpa [hscp] using this
  have hqmem : ({ page := q, score := 1 } : ScoredPage) ∈ scoredSorted [tk] pages := by
    refine (hperm.mem_iff).mpr ?_
    have := List.mem_map_of_mem (fun x => ({ page := x, score := scorePage [tk] x } : ScoredPage)) hq
    simpa [hscq] using this
  exact indexOf_lt_of_pairwise_scoreGe _ hsorted _ _ hpmem hqmem (by norm_num)

/-- Closed witness for `scorePage_title_weight`: with pages `[bodyHitPage,
titleHitPage]` and token `"setup"`, the title page scores 3, the body page 1,
and the title page is ranked first despite coming second in crawl order. -/
theorem scorePage_title_weight_witness :
    (containsSub (lowerL titleHitPage.title.data) "setup".data = true ∧
     containsSub (lowerL bodyHitPage.title.data) "setup".data = false ∧
     containsSub (lowerL (bodyHitPage.title.data ++ '\n' :: bodyHitPage.text.data))
       "setup".data = true) ∧
    (scorePage ["setup"] titleHitPage = 3 ∧ scorePage ["setup"] bodyHitPage = 1 ∧
     List.indexOf ({ page := titleHitPage, score := 3 } : ScoredPage)
         (scoredSorted ["setup"] [bodyHitPage, titleHitPage])
       < List.indexOf ({ page := bodyHitPage, score := 1 } : ScoredPage)
         (scoredSorted ["setup"] [bodyHitPage, titleHitPage])) :=
  ⟨⟨by decide, by decide, by decide⟩,
   scorePage_title_weight [bodyHitPage, titleHitPage] "setup" titleHitPage bodyHitPage
     (by decide) (by decide) (by decide) (by decide) (by decide)⟩

/-- C4: `isAllowedGuideUrl` returns false exactly when the host differs from
the root's host, or the path does not start with the root's
containing-directory prefix, or the path does not end in `.htm`/`.html`
(case-insensitive) or a trailing slash — and returns true otherwise. -/
theorem isAllowedGuideUrl_false_iff (root u : Url) :
    isAllowedGuideUrl root u = false ↔
      (u.host ≠ root.host ∨
       startsWithS u.pathname (guideRootDir root) = false ∨
       pathSuffixTest u.pathname = false) := by
  unfold isAllowedGuideUrl
  by_cases h1 : u.host ≠ root.host
  · simp [h1]
  · by_cases h2 : startsWithS u.pathname (guideRootDir root) = true
    · by_cases h3 : pathSuffixTest u.pathname = true
      · simp [h1, h2, h3]
      · simp [h1, h2, h3, Bool.not_eq_true _ ▸ h3]
    · simp [h1, h2, Bool.not_eq_true _ ▸ h2]

/-- Closed witness for `isAllowedGuideUrl_false_iff`: under the default root,
an off-host URL is rejected and its host indeed differs. -/
theorem isAllowedGuideUrl_false_iff_witness :
    isAllowedGuideUrl defaultRoot
        { scheme := "https", host := "evil.example", pathname := "/portal/index.html",
          search := "", hash := "" } = false ∧
    ({ scheme := "https", host := "evil.example", pathname := "/portal/index.html",
       search := "", hash := "" } : Url).host ≠ defaultRoot.host :=
  ⟨(isAllowedGuideUrl_false_iff defaultRoot _).mpr (Or.inl (by decide)), by decide⟩

/-- C7 counterexample: an unknown named entity passes through `stripHtmlToText`
unchanged, so the output contains a raw entity reference, refuting
"output contains no raw entity references" for every input. -/
theorem stripHtmlToText_keeps_unknown_entity :
    stripHtmlToText "&copy;" = "&copy;" ∧
    hasEntityRef (stripHtmlToText "&copy;") = true := by
  constructor
  · decide
  · decide

/-- C7 as amended: complete tags are removed and known entities decoded —
`stripHtmlToText("<p>a</p><p>b</p>")` yields the two lines `a`, `b` with no
`<`/`>` characters, and `decodeHtmlEntities` handles numeric and table-listed
named entities (`"&amp;&#65;&#x42;"` gives `"&AB"`) — but unknown named
entities pass through unchanged, so raw entity references can remain. -/
theorem stripHtmlToText_strips_tags_example :
    stripHtmlToText "<p>a</p><p>b</p>" = "a\nb" ∧
    (stripHtmlToText "<p>a</p><p>b</p>").data.all
      (fun c => !(c == '<' || c == '>')) = true ∧
    decodeHtmlEntities "&amp;&#65;&#x42;" = "&AB" ∧
    stripHtmlToText "&copy;" = "&copy;" := by
  refine ⟨by decide, by decide, by decide, by decide⟩

/-- Appending a fresh element preserves `Nodup`. -/
theorem nodup_append_single {α : Type} {l : List α} {a : α}
    (h : l.Nodup) (ha : a ∉ l) : (l ++ [a]).Nodup := by
  simp [List.nodup_append, h, ha]

/-- Crawl-loop invariant: the fetch log stays duplicate-free and inside the
visited set (a URL is marked visited before it is fetched, and never
re-processed once visited). -/
theorem crawlLoop_fetch_invariant (web : String → Option String) (root : Url)
    (maxPages : Nat) :
    ∀ (fuel : Nat) (st : CrawlOut),
      st.fetchLog.Nodup → (∀ u ∈ st.fetchLog, u ∈ st.visited) →
      (crawlLoop web root maxPages fuel st).fetchLog.Nodup ∧
      ∀ u ∈ (crawlLoop web root maxPages fuel st).fetchLog,
        u ∈ (crawlLoop web root maxPages fuel st).visited := by
  intro fuel
  induction fuel with
  | zero => intro st h1 h2; exact ⟨h1, h2⟩
  | succ fuel ih =>
      intro st h1 h2
      cases hq : st.queue with
      | nil =>
          simp only [crawlLoop, hq]
          exact ⟨h1, h2⟩
      | cons url rest =>
          simp only [crawlLoop, hq]
          by_cases hmax : maxPages ≤ st.pages.length
          · rw [if_pos hmax]
            exact ⟨h1, h2⟩
          · rw [if_neg hmax]
            by_cases hskip : url = "" ∨ url ∈ st.visited
            · rw [if_pos hskip]
              exact ih _ h1 h2
            · rw [if_neg hskip]
              have hnv : url ∉ st.visited := fun h => hskip (Or.inr h)
              have hnf : url ∉ st.fetchLog := fun h => hnv (h2 url h)
              have h2ext : ∀ u ∈ st.fetchLog, u ∈ st.visited ++ [url] :=
                fun u hu => List.mem_append_left _ (h2 u hu)
              have h1new : (st.fetchLog ++ [url]).Nodup := nodup_append_single h1 hnf
              have h2new : ∀ u ∈ st.fetchLog ++ [url], u ∈ st.visited ++ [url] := by
                intro u hu
                rcases List.mem_append.mp hu with h | h
                · exact List.mem_append_left _ (h2 u h)
                · exact List.mem_append_right _ h
              cases hallow : allowedStr root url with
              | false =>
                  rw [if_pos rfl]
                  exact ih _ h1 h2ext
              | true =>
                  rw [if_neg (by simp)]
                  cases hw : web url with
                  | none => exact ih _ h1new h2new
                  | some html => exact ih _ h1new h2new

/-- C6 as amended: during every run of `crawlGuidePages` — over every network
behaviour, root, page budget and fuel — no URL is fetched (processed) more
than once: visited-set membership is checked at dequeue and before enqueue.
(The same URL can be *enqueued* twice; see the counterexample.) -/
theorem crawlGuidePages_fetches_each_url_once (web : String → Option String)
    (root : Url) (maxPages fuel : Nat) :
    ((crawlGuidePagesLog web root maxPages fuel).fetchLog).Nodup :=
  (crawlLoop_fetch_invariant web root maxPages fuel (initCrawl root)
    (by simp [initCrawl]) (by simp [initCrawl])).1

/-- C6 counterexample: `x.html` is enqueued twice in one run — the membership
check before enqueue consults only the visited set, not the queue, so two
pages fetched before `x.html` is dequeued both enqueue it. -/
theorem crawl_enqueues_url_twice :
    List.count "https://g.example/portal/x.html"
      (crawlGuidePagesLog demoWeb demoRoot 24 10).enqueueLog = 2 := by
  decide

/-- C1: when the cache holds pages from a previous successful crawl and the
crawl performed by `getGuidePages` throws, the call returns exactly the cached
pages (non-empty), leaves them unchanged in the cache, records a non-empty
`lastError`, and sets `expiresAt = now + min(5 minutes, TTL)`.  The hypothesis
`cache.expiresAt ≤ now` states that the cache is expired, which is what makes
`getGuidePages` invoke the crawl at all. -/
theorem getGuidePages_crawl_failure_serves_stale (ttl now : Nat) (cache : GuideCache)
    (msg : String) (hpages : cache.pages ≠ []) (hexp : cache.expiresAt ≤ now) :
    (getGuidePages true ttl now cache (Except.error msg)).2 = cache.pages ∧
    (getGuidePages true ttl now cache (Except.error msg)).2 ≠ [] ∧
    (getGuidePages true ttl now cache (Except.error msg)).1.pages = cache.pages ∧
    (getGuidePages true ttl now cache (Except.error msg)).1.lastError ≠ "" ∧
    (getGuidePages true ttl now cache (Except.error msg)).1.expiresAt
      = now + Nat.min (5 * 60 * 1000) ttl := by
  have hguard : ¬ (cache.pages ≠ [] ∧ now < cache.expiresAt) := by
    rintro ⟨-, hlt⟩; omega
  refine ⟨?_, ?_, ?_, ?_, ?_⟩
  · simp [getGuidePages, hguard]
  · simpa [getGuidePages, hguard] using hpages
  · simp [getGuidePages, hguard]
  · have hle : (getGuidePages true ttl now cache (Except.error msg)).1.lastError
        = if msg ≠ "" then msg else "guide crawl failed" := by
      simp [getGuidePages, hguard]
    rw [hle]
    by_cases hmsg : msg = ""
    · subst hmsg; decide
    · simp [hmsg]
  · simp [getGuidePages, hguard]

/-- Closed witness for `getGuidePages_crawl_failure_serves_stale`. -/
theorem getGuidePages_crawl_failure_serves_stale_witness :
    (staleCache.pages ≠ [] ∧ staleCache.expiresAt ≤ 10) ∧
    ((getGuidePages true 21600000 10 staleCache (Except.error "boom")).2 = staleCache.pages ∧
     (getGuidePages true 21600000 10 staleCache (Except.error "boom")).2 ≠ [] ∧
     (getGuidePages true 21600000 10 staleCache (Except.error "boom")).1.pages = staleCache.pages ∧
     (getGuidePages true 21600000 10 staleCache (Except.error "boom")).1.lastError ≠ "" ∧
     (getGuidePages true 21600000 10 staleCache (Except.error "boom")).1.expiresAt
       = 10 + Nat.min (5 * 60 * 1000) 21600000) :=
  ⟨⟨by decide, by decide⟩,
   getGuidePages_crawl_failure_serves_stale 21600000 10 staleCache "boom"
     (by decide) (by decide)⟩

/-- C2 counterexample: a two-call sequence in which the first call caches a
non-empty page list and the second call — after expiry, with a crawl that
succeeds but returns no pages — returns the empty list.  The cache is replaced
wholesale on success, so a non-empty cache can later be served as empty. -/
theorem guideCache_served_empty_after_nonempty :
    (getGuidePages true 100 0 GuideCache.initial (Except.ok [samplePage])).1.pages ≠ [] ∧
    (getGuidePages true 100 200
        (getGuidePages true 100 0 GuideCache.initial (Except.ok [samplePage])).1
        (Except.ok [])).2 = [] := by
  constructor
  · decide
  · decide

/-- C2 as amended: with the feature enabled, once the cache holds a non-empty
page list a call can only return the empty list when the crawl it ran
succeeded with an empty page list; in particular a crawl failure never
empties a previously non-empty cache. -/
theorem getGuidePages_empty_only_from_empty_success (ttl now : Nat)
    (cache : GuideCache) (crawl : Except String (List Page))
    (hpages : cache.pages ≠ [])
    (hempty : (getGuidePages true ttl now cache crawl).2 = []) :
    crawl = Except.ok [] := by
  by_cases hfresh : cache.pages ≠ [] ∧ now < cache.expiresAt
  · exact absurd (by simp [getGuidePages, hfresh] at hempty) hpages
  · cases crawl with
    | ok pages =>
        have : pages = [] := by simpa [getGuidePages, hfresh] using hempty
        simp [this]
    | error msg =>
        exact absurd (by simpa [getGuidePages, hfresh] using hempty) hpages

/-- Closed witness for `getGuidePages_empty_only_from_empty_success`. -/
theorem getGuidePages_empty_only_from_empty_success_witness :
    (staleCache.pages ≠ [] ∧
     (getGuidePages true 100 10 staleCache (Except.ok ([] : List Page))).2 = []) ∧
    (Except.ok ([] : List Page) : Except String (List Page)) = Except.ok [] :=
  ⟨⟨by decide, by decide⟩,
   getGuidePages_empty_only_from_empty_success 100 10 staleCache
     (Except.ok []) (by decide) (by decide)⟩

/-- C3 counterexample: a cache entry populated by a failed cold-start crawl
(`fetchedAt ≠ 0`, error recorded) whose expiry timestamp is still in the
future.  The guard `guideCache.pages.length && guideCache.expiresAt > now`
tests the page list, not entry existence, so a crawl IS triggered and the
cache is replaced — the claim's "return it unchanged and no crawl is
triggered" fails for this unexpired entry. -/
theorem getGuidePages_refreshes_unexpired_empty_entry :
    failedColdCache.fetchedAt ≠ 0 ∧
    500 < failedColdCache.expiresAt ∧
    guideCrawlTriggered true failedColdCache 500 = true ∧
    (getGuidePages true 21600000 500 failedColdCache
        (Except.ok [samplePage])).1.pages ≠ failedColdCache.pages := by
  refine ⟨by decide, by decide, by decide, by decide⟩

/-- C3 as amended: when a cached entry with a **non-empty** page list exists
and its expiry timestamp is still in the future, `getGuidePages` returns the
cached entry unchanged (whatever the crawl would have produced) and no crawl
is triggered. -/
theorem getGuidePages_fresh_nonempty_cache_hit (ttl now : Nat) (cache : GuideCache)
    (hpages : cache.pages ≠ []) (hfresh : now < cache.expiresAt) :
    (∀ crawl, getGuidePages true ttl now cache crawl = (cache, cache.pages)) ∧
    guideCrawlTriggered true cache now = false := by
  constructor
  · intro crawl
    simp [getGuidePages, hpages, hfresh]
  · simp [guideCrawlTriggered, hpages, hfresh]

/-- Closed witness for `getGuidePages_fresh_nonempty_cache_hit`. -/
theorem getGuidePages_fresh_nonempty_cache_hit_witness :
    (staleCache.pages ≠ [] ∧ (2 : Nat) < staleCache.expiresAt) ∧
    (getGuidePages true 100 2 staleCache (Except.error "x")
        = (staleCache, staleCache.pages) ∧
     guideCrawlTriggered true staleCache 2 = false) :=
  ⟨⟨by decide, by decide⟩,
   ⟨(getGuidePages_fresh_nonempty_cache_hit 100 2 staleCache
       (by decide) (by decide)).1 (Except.error "x"),
    (getGuidePages_fresh_nonempty_cache_hit 100 2 staleCache
       (by decide) (by decide)).2⟩⟩

end SotobacoGuide
